import Mathlib

/-!
Verification development for the `mcphost` agent core (`cmd/root.go` and the
session file): message-history pruning, the provider retry/backoff loop, and
the tool-dispatch turn loop, embedded shallowly and checked against the
specification's properties.
-/

namespace Mcphost

/-- Opaque tool-result payload item: the Go side stores `[]interface{}` and
only distinguishes `mcp.TextContent` items (whose text is extracted) from
everything else.  The error path stores a single text item holding the error
message. -/
inductive Payload where
  | text (s : String)
  | other (tag : String)
deriving Repr, DecidableEq

/-- `history.ContentBlock`: fields used by the core.  `content` is the opaque
tool-result payload (empty for non-result blocks); `input` stands for the
marshalled JSON arguments. -/
structure ContentBlock where
  type : String
  text : String := ""
  id : String := ""
  name : String := ""
  input : String := ""
  toolUseID : String := ""
  content : List Payload := []
deriving Repr, DecidableEq

/-- `history.HistoryMessage`. -/
structure HistoryMessage where
  role : String
  content : List ContentBlock
deriving Repr, DecidableEq

/-! ## pruneMessages (cmd/root.go lines 159-214) -/

/-- First pass of `pruneMessages`: collect all `tool_use` ids of the kept
window (`toolUseIds` map in the Go code; a list of ids models the set). -/
def collectToolUseIds (msgs : List HistoryMessage) : List String :=
  msgs.flatMap fun m =>
    m.content.filterMap fun b =>
      if b.type == "tool_use" then some b.id else none

/-- First pass of `pruneMessages`: collect all `tool_result` `tool_use_id`s of
the kept window (`toolResultIds` map in the Go code). -/
def collectToolResultIds (msgs : List HistoryMessage) : List String :=
  msgs.flatMap fun m =>
    m.content.filterMap fun b =>
      if b.type == "tool_result" then some b.toolUseID else none

/-- Second-pass block filter of `pruneMessages`: a `tool_use` block is kept
iff some `tool_result` in the window references it, a `tool_result` block is
kept iff some `tool_use` in the window matches it, every other block is kept. -/
def keepBlock (tuIds trIds : List String) (b : ContentBlock) : Bool :=
  if b.type == "tool_use" then trIds.contains b.id
  else if b.type == "tool_result" then tuIds.contains b.toolUseID
  else true

/-- Per-message message-dropping step of `pruneMessages`: filter the blocks,
then keep the message iff
`(len(prunedBlocks) > 0 && role == "assistant") || role != "assistant"`
and `len(prunedBlocks) > 0 || hasTextBlock` (where `hasTextBlock` inspects
the ORIGINAL content), with the message's content replaced by the filtered
blocks. -/
def pruneOne (tuIds trIds : List String) (m : HistoryMessage) :
    Option HistoryMessage :=
  let prunedBlocks := m.content.filter (keepBlock tuIds trIds)
  if (decide (prunedBlocks.length > 0) && m.role == "assistant")
      || !(m.role == "assistant") then
    if decide (prunedBlocks.length > 0)
        || m.content.any (fun b => b.type == "text") then
      some { m with content := prunedBlocks }
    else none
  else none

/-- `pruneMessages`: if the history fits in the window return it unchanged,
otherwise keep the last `messageWindow` messages, collect the tool ids, and
run the block filter and message-dropping step over the kept messages. -/
def pruneMessages (messageWindow : Nat) (messages : List HistoryMessage) :
    List HistoryMessage :=
  if messages.length ≤ messageWindow then messages
  else
    let kept := messages.drop (messages.length - messageWindow)
    kept.filterMap
      (pruneOne (collectToolUseIds kept) (collectToolResultIds kept))

/-! ## Orphan predicates (spec §8 invariant) -/

/-- All content blocks of a message sequence. -/
def allBlocks (msgs : List HistoryMessage) : List ContentBlock :=
  msgs.flatMap (·.content)

/-- No surviving `tool_result` block references a `tool_use` id absent from
the sequence. -/
def noDanglingResults (msgs : List HistoryMessage) : Bool :=
  (allBlocks msgs).all fun b =>
    b.type != "tool_result"
      || (allBlocks msgs).any fun c => c.type == "tool_use" && c.id == b.toolUseID

/-- No surviving `tool_use` block lacks a matching `tool_result` in the
sequence. -/
def noDanglingUses (msgs : List HistoryMessage) : Bool :=
  (allBlocks msgs).all fun b =>
    b.type != "tool_use"
      || (allBlocks msgs).any fun c => c.type == "tool_result" && c.toolUseID == b.id

/-! ## Provider retry loop (cmd/root.go lines 41-45, 571-620; session file
`CreateMessage` lines 138-196) -/

/-- `initialBackoff = 1 * time.Second`, measured in seconds. -/
def initialBackoff : Nat := 1

/-- `maxBackoff = 30 * time.Second`, measured in seconds. -/
def maxBackoff : Nat := 30

/-- `maxRetries = 5`. -/
def maxRetries : Nat := 5

/-- The terminal message returned after exhausting the retries. -/
def overloadedMsg : String :=
  "claude is currently overloaded. please wait a few minutes and try again"

/-- Substring scan: does `needle` occur (contiguously) in the haystack?
Models Go `strings.Contains` over the characters. -/
def containsAux (needle : List Char) : List Char → Bool
  | [] => needle.isEmpty
  | l@(_ :: rest) => needle.isPrefixOf l || containsAux needle rest

/-- `strings.Contains(err.Error(), "overloaded_error")`. -/
def containsOverloadedError (e : String) : Bool :=
  containsAux "overloaded_error".data e.data

/-- What one provider call produces at a given attempt: the provider's
message or an error string. -/
inductive Outcome (α : Type) where
  | ok (resp : α)
  | err (msg : String)
deriving Repr, DecidableEq

/-- A tool call as exposed by `llm.Message.GetToolCalls()`: id, qualified
name, and (marshalled) arguments. -/
structure ToolCall where
  id : String
  name : String
  args : String
deriving Repr, DecidableEq

/-- A provider completion (`llm.Message`): role, flattened text content, tool
calls. -/
structure Response where
  role : String
  content : String
  toolCalls : List ToolCall
deriving Repr, DecidableEq

/-- The request the retry loop sends: the `prompt` argument and the message
history converted to `llmMessages`, both computed once before the loop and
never rebuilt across retries. -/
structure Request where
  prompt : String
  msgs : List HistoryMessage
deriving Repr, DecidableEq

/-- The retry loop of `RunPrompt`/`CreateMessage`.  `provider req attempt`
abstracts `ms.Provider.CreateMessage` at the given attempt index.  Returns
the sleeps performed (the backoff before each retry), the request issued at
each attempt, and the final result.  On an error containing
`overloaded_error`: if no retries are left fail with the terminal overloaded
message; otherwise sleep `backoff`, double it, clamp at `maxBackoff`, and
retry.  Any other error returns immediately.  The Go loop counts `retries`
up from 0 and stops retrying once `retries >= maxRetries`; here the
equivalent `retriesLeft = maxRetries - retries` is carried instead, which
makes the recursion structural (`retries >= maxRetries` is `retriesLeft = 0`
and `retries++` is the step to `retriesLeft - 1`). -/
def completeLoop (provider : Request → Nat → Outcome Response) (req : Request) :
    Nat → Nat → Nat → List Nat × List Request × Outcome Response
  | retriesLeft, attempt, backoff =>
    match provider req attempt with
    | .ok resp => ([], [req], .ok resp)
    | .err e =>
      if containsOverloadedError e then
        match retriesLeft with
        | 0 => ([], [req], .err overloadedMsg)
        | r + 1 =>
          let doubled := backoff * 2
          let newBackoff := if maxBackoff < doubled then maxBackoff else doubled
          let rest := completeLoop provider req r (attempt + 1) newBackoff
          (backoff :: rest.1, req :: rest.2.1, rest.2.2)
      else ([], [req], .err e)

/-- One `Complete` call: the loop starts with `backoff = initialBackoff` and
`retries = 0` (that is, all `maxRetries` retries left), at attempt index 0. -/
def complete (provider : Request → Nat → Outcome Response) (req : Request) :
    List Nat × List Request × Outcome Response :=
  completeLoop provider req maxRetries 0 initialBackoff

/-! ## Tool dispatch (cmd/root.go lines 639-742) -/

/-- `strings.Split(name, "__")` specialised to the fixed separator: greedy
left-to-right scan over the characters, cutting at every (non-overlapping)
occurrence of `"__"`. -/
def splitDunder : List Char → List (List Char)
  | [] => [[]]
  | '_' :: '_' :: rest => [] :: splitDunder rest
  | c :: rest =>
    match splitDunder rest with
    | [] => [[c]]
    | h :: t => (c :: h) :: t

/-- `parts := strings.Split(toolCall.GetName(), "__")`. -/
def splitToolName (name : String) : List String :=
  (splitDunder name.data).map fun cs => String.mk cs

/-- `strings.TrimSpace` over the characters. -/
def trimSpace (s : String) : String :=
  String.mk (((s.data.dropWhile Char.isWhitespace).reverse.dropWhile
    Char.isWhitespace).reverse)

/-- Text extraction from a tool-result payload: every text item contributes
`item.Text ++ " "` (the Go `fmt.Sprintf("%v ", ...)` accumulation); other
items contribute nothing. -/
def extractText (payload : List Payload) : String :=
  payload.foldl
    (fun acc item =>
      match item with
      | .text s => acc ++ s ++ " "
      | .other _ => acc)
    ""

/-- The collaborators one turn consults: the registered MCP client names
(`ms.MCPClients` keys) and the tool transport
(`mcpClient.CallTool`, abstracted as server name → tool name → arguments →
error or the result's `Content` payload, which may be nil — `none`). -/
structure Env where
  clients : List String
  callTool : String → String → String → Outcome (Option (List Payload))

/-- The `tool_use` block recorded in `messageContent` for one tool call. -/
def toolUseBlock (tc : ToolCall) : ContentBlock :=
  { type := "tool_use", id := tc.id, name := tc.name, input := tc.args }

/-- The `tool_result` block synthesized when `CallTool` errors: its content
is the single text item `"Error calling tool <tool>: <err>"` (the `Text`
field stays empty on this path). -/
def errorResultBlock (tc : ToolCall) (toolName e : String) : ContentBlock :=
  { type := "tool_result", toolUseID := tc.id,
    content := [.text ("Error calling tool " ++ toolName ++ ": " ++ e)] }

/-- The `tool_result` block built from a successful invocation's non-nil
payload: passthrough content plus the flattened, trimmed text. -/
def successResultBlock (tc : ToolCall) (payload : List Payload) : ContentBlock :=
  { type := "tool_result", toolUseID := tc.id,
    content := payload, text := trimSpace (extractText payload) }

/-- Dispatch of one tool call (the body of the `for _, toolCall` loop of
`RunPrompt` after the `tool_use` block was recorded): returns the
`tool_result` block appended to `toolResults`, or `none` when the iteration
`continue`s without one.  Malformed qualified name (not exactly two parts)
and unknown server are skipped with no block; an invocation error is
converted into a `tool_result` block carrying the error text; a successful
invocation with nil `Content` produces no block; otherwise the payload is
kept and its text items are flattened.  (The Go `json.Unmarshal` of the
arguments round-trips the `json.Marshal` performed just above it, so it is
modelled as always succeeding.) -/
def processToolCall (env : Env) (tc : ToolCall) : Option ContentBlock :=
  match splitToolName tc.name with
  | [serverName, toolName] =>
    if env.clients.contains serverName then
      match env.callTool serverName toolName tc.args with
      | .err e => some (errorResultBlock tc toolName e)
      | .ok none => none
      | .ok (some payload) => some (successResultBlock tc payload)
    else none
  | _ => none

/-- The `messageContent` the round builds: a `text` block when the
completion's content is non-empty, then one `tool_use` block per tool call in
provider order (recorded even for calls later skipped by dispatch). -/
def buildAssistantContent (resp : Response) : List ContentBlock :=
  (if resp.content != "" then [{ type := "text", text := resp.content }] else [])
    ++ resp.toolCalls.map toolUseBlock

/-- The `toolResults` list the round accumulates, in provider order. -/
def toolResultsOf (env : Env) (resp : Response) : List ContentBlock :=
  resp.toolCalls.filterMap (processToolCall env)

/-- The `user` message appended when the prompt is non-empty. -/
def userMessage (prompt : String) : HistoryMessage :=
  ⟨"user", [{ type := "text", text := prompt }]⟩

/-- One `tool` role message wrapping one tool result. -/
def toolMessage (b : ContentBlock) : HistoryMessage := ⟨"tool", [b]⟩

/-! ## RunPrompt (cmd/root.go lines 545-762) -/

/-- `RunPrompt`.  Each recursive round consumes the head of `script` (the
provider's behaviour for that round's completion, attempt-indexed for the
retry loop); the empty-script case is a modelling artifact that every
theorem's hypotheses keep unreachable.  A round: append the `user` message
when `prompt` is non-empty, run the retry loop on the (now fixed) request,
propagate a completion error immediately, otherwise append one assistant
message built from the completion, then — if any tool results were
produced — append one `tool` message per result and recurse with an empty
prompt; with no tool results the turn settles.  Returns the per-round sleep
lists, the final history, and the result. -/
def runPrompt (env : Env) :
    List (Request → Nat → Outcome Response) → String → List HistoryMessage →
      List (List Nat) × List HistoryMessage × Outcome Unit
  | [], _, messages => ([], messages, .err "provider script exhausted")
  | providerRound :: rest, prompt, messages =>
    let messages := if prompt != "" then messages ++ [userMessage prompt] else messages
    let res := complete providerRound ⟨prompt, messages⟩
    match res.2.2 with
    | .err e => ([res.1], messages, .err e)
    | .ok resp =>
      let toolResults := toolResultsOf env resp
      let messages := messages ++ [⟨resp.role, buildAssistantContent resp⟩]
      if toolResults.length > 0 then
        let messages := messages ++ toolResults.map toolMessage
        let next := runPrompt env rest "" messages
        (res.1 :: next.1, next.2)
      else
        ([res.1], messages, .ok ())

/-- The split the specification's words describe, for comparison with the
code's `splitToolName`: cut at the FIRST occurrence of `"__"` into
`(serverName, toolName)`; `none` when the separator does not occur (the
only way to get fewer than two parts). -/
def splitFirstAux : List Char → Option (List Char × List Char)
  | [] => none
  | '_' :: '_' :: rest => some ([], rest)
  | c :: rest => (splitFirstAux rest).map fun p => (c :: p.1, p.2)

/-- Spec-described split-on-first-occurrence of the qualified tool name. -/
def specSplitToolName (name : String) : Option (String × String) :=
  (splitFirstAux name.data).map fun p => (String.mk p.1, String.mk p.2)

/-- A small concrete environment used by witnesses: one registered server
`"srv"` whose tool `"ok"` succeeds with a one-item text payload, whose tool
`"nil"` succeeds with nil content, and whose other tools fail. -/
def envW : Env :=
  { clients := ["srv"],
    callTool := fun _ n _ =>
      if n == "ok" then .ok (some [.text "hi"])
      else if n == "nil" then .ok none
      else .err "boom" }

/-! ## Retry-loop lemmas -/

theorem completeLoop_ok {provider : Request → Nat → Outcome Response}
    {req : Request} {attempt : Nat} {resp : Response}
    (he : provider req attempt = .ok resp) (retriesLeft backoff : Nat) :
    completeLoop provider req retriesLeft attempt backoff
      = ([], [req], .ok resp) := by
  cases retriesLeft <;> simp [completeLoop, he]

theorem completeLoop_fatal {provider : Request → Nat → Outcome Response}
    {req : Request} {attempt : Nat} {e : String}
    (he : provider req attempt = .err e)
    (hno : containsOverloadedError e = false) (retriesLeft backoff : Nat) :
    completeLoop provider req retriesLeft attempt backoff
      = ([], [req], .err e) := by
  cases retriesLeft <;> simp [completeLoop, he, hno]

theorem completeLoop_exhausted {provider : Request → Nat → Outcome Response}
    {req : Request} {attempt : Nat} {e : String}
    (he : provider req attempt = .err e)
    (ho : containsOverloadedError e = true) (backoff : Nat) :
    completeLoop provider req 0 attempt backoff
      = ([], [req], .err overloadedMsg) := by
  simp [completeLoop, he, ho]

theorem completeLoop_retry {provider : Request → Nat → Outcome Response}
    {req : Request} {attempt : Nat} {e : String}
    (he : provider req attempt = .err e)
    (ho : containsOverloadedError e = true) (r backoff : Nat) :
    completeLoop provider req (r + 1) attempt backoff
      = ((backoff :: (completeLoop provider req r (attempt + 1)
            (if maxBackoff < backoff * 2 then maxBackoff else backoff * 2)).1,
          req :: (completeLoop provider req r (attempt + 1)
            (if maxBackoff < backoff * 2 then maxBackoff else backoff * 2)).2.1,
          (completeLoop provider req r (attempt + 1)
            (if maxBackoff < backoff * 2 then maxBackoff else backoff * 2)).2.2)) := by
  simp [completeLoop, he, ho]

/-- C1: for a provider that keeps failing with a transient-overload error,
one `Complete` call (retry counter starting at 0) sleeps exactly
`1, 2, 4, 8, 16` time-units before the successive retries (doubling exactly
and never exceeding the 30-unit cap), issues the identical request at every
one of the 6 attempts, and the 6th consecutive transient failure yields the
terminal overloaded error instead of a 6th retry. -/
theorem complete_all_overloaded (provider : Request → Nat → Outcome Response)
    (req : Request)
    (h : ∀ n, n ≤ maxRetries →
      ∃ e, provider req n = .err e ∧ containsOverloadedError e = true) :
    complete provider req
      = ([1, 2, 4, 8, 16], List.replicate 6 req, .err overloadedMsg) := by
  obtain ⟨e0, he0, ho0⟩ := h 0 (by norm_num [maxRetries])
  obtain ⟨e1, he1, ho1⟩ := h 1 (by norm_num [maxRetries])
  obtain ⟨e2, he2, ho2⟩ := h 2 (by norm_num [maxRetries])
  obtain ⟨e3, he3, ho3⟩ := h 3 (by norm_num [maxRetries])
  obtain ⟨e4, he4, ho4⟩ := h 4 (by norm_num [maxRetries])
  obtain ⟨e5, he5, ho5⟩ := h 5 (by norm_num [maxRetries])
  have h5 : completeLoop provider req 0 5 30 = ([], [req], .err overloadedMsg) :=
    completeLoop_exhausted he5 ho5 _
  have h4 : completeLoop provider req 1 4 16
      = ([16], [req, req], .err overloadedMsg) := by
    rw [show (1 : Nat) = 0 + 1 from rfl, completeLoop_retry he4 ho4]
    simp only [show (4 : Nat) + 1 = 5 from rfl,
      show (if maxBackoff < 16 * 2 then maxBackoff else 16 * 2) = 30 from by decide, h5]
  have h3 : completeLoop provider req 2 3 8
      = ([8, 16], [req, req, req], .err overloadedMsg) := by
    rw [show (2 : Nat) = 1 + 1 from rfl, completeLoop_retry he3 ho3]
    simp only [show (3 : Nat) + 1 = 4 from rfl,
      show (if maxBackoff < 8 * 2 then maxBackoff else 8 * 2) = 16 from by decide, h4]
  have h2 : completeLoop provider req 3 2 4
      = ([4, 8, 16], [req, req, req, req], .err overloadedMsg) := by
    rw [show (3 : Nat) = 2 + 1 from rfl, completeLoop_retry he2 ho2]
    simp only [show (2 : Nat) + 1 = 3 from rfl,
      show (if maxBackoff < 4 * 2 then maxBackoff else 4 * 2) = 8 from by decide, h3]
  have h1 : completeLoop provider req 4 1 2
      = ([2, 4, 8, 16], [req, req, req, req, req], .err overloadedMsg) := by
    rw [show (4 : Nat) = 3 + 1 from rfl, completeLoop_retry he1 ho1]
    simp only [show (1 : Nat) + 1 = 2 from rfl,
      show (if maxBackoff < 2 * 2 then maxBackoff else 2 * 2) = 4 from by decide, h2]
  have h0 : completeLoop provider req 5 0 1
      = ([1, 2, 4, 8, 16], [req, req, req, req, req, req], .err overloadedMsg) := by
    rw [show (5 : Nat) = 4 + 1 from rfl, completeLoop_retry he0 ho0]
    simp only [show (0 : Nat) + 1 = 1 from rfl,
      show (if maxBackoff < 1 * 2 then maxBackoff else 1 * 2) = 2 from by decide, h1]
  show completeLoop provider req maxRetries 0 initialBackoff = _
  rw [show maxRetries = 5 from rfl, show initialBackoff = 1 from rfl, h0]
  rfl

/-- Witness for `complete_all_overloaded` at a concrete always-overloaded
provider. -/
theorem complete_all_overloaded_witness :
    complete (fun _ _ => .err "overloaded_error") ⟨"p", []⟩
      = ([1, 2, 4, 8, 16], List.replicate 6 ⟨"p", []⟩, .err overloadedMsg) :=
  complete_all_overloaded _ _ (fun _ _ => ⟨"overloaded_error", rfl, by decide⟩)

/-- C7: a provider error not classified as transient overload makes the
completion loop fail immediately with that error (a single request, no
retry, no sleep), and `RunPrompt` then aborts the turn with the history left
exactly as constructed before the failed completion: the user-prompt message
(when the prompt was non-empty) is present and no assistant or tool message
was appended for the round. -/
theorem runPrompt_fatal_error (env : Env)
    (p0 : Request → Nat → Outcome Response)
    (rest : List (Request → Nat → Outcome Response))
    (prompt : String) (msgs : List HistoryMessage) (e : String)
    (he : ∀ req, p0 req 0 = .err e)
    (hno : containsOverloadedError e = false) :
    (∀ req, complete p0 req = ([], [req], .err e)) ∧
    runPrompt env (p0 :: rest) prompt msgs
      = ([[]],
         (if prompt != "" then msgs ++ [userMessage prompt] else msgs),
         .err e) := by
  have hc : ∀ req, complete p0 req = ([], [req], .err e) := fun req =>
    completeLoop_fatal (he req) hno _ _
  refine ⟨hc, ?_⟩
  simp only [runPrompt]
  rw [hc]

/-! ## Turn-loop lemmas -/

theorem runPrompt_round (env : Env) (p0 : Request → Nat → Outcome Response)
    (rest : List (Request → Nat → Outcome Response))
    (prompt : String) (msgs : List HistoryMessage) (resp : Response)
    (h0 : ∀ req, p0 req 0 = .ok resp) :
    runPrompt env (p0 :: rest) prompt msgs
      = (let msgs1 := if prompt != "" then msgs ++ [userMessage prompt] else msgs
         let trs := toolResultsOf env resp
         let msgs2 := msgs1 ++ [⟨resp.role, buildAssistantContent resp⟩]
         if trs.length > 0 then
           ([] :: (runPrompt env rest "" (msgs2 ++ trs.map toolMessage)).1,
            (runPrompt env rest "" (msgs2 ++ trs.map toolMessage)).2)
         else ([[]], msgs2, .ok ())) := by
  have hc : complete p0
      ⟨prompt, if prompt != "" then msgs ++ [userMessage prompt] else msgs⟩
      = ([], [⟨prompt, if prompt != "" then msgs ++ [userMessage prompt] else msgs⟩],
         .ok resp) := completeLoop_ok (h0 _) _ _
  simp only [runPrompt]
  rw [hc]

theorem runPrompt_settle (env : Env) (p0 : Request → Nat → Outcome Response)
    (rest : List (Request → Nat → Outcome Response))
    (prompt : String) (msgs : List HistoryMessage) (resp : Response)
    (h0 : ∀ req, p0 req 0 = .ok resp) (hcalls : resp.toolCalls = []) :
    runPrompt env (p0 :: rest) prompt msgs
      = ([[]],
         (if prompt != "" then msgs ++ [userMessage prompt] else msgs)
           ++ [⟨resp.role, buildAssistantContent resp⟩],
         .ok ()) := by
  rw [runPrompt_round env p0 rest prompt msgs resp h0]
  simp [toolResultsOf, hcalls]

/-- C5: a completion with zero tool calls settles the turn: no recursive
call is made (a single round, hence a single per-round sleep list), the
result is success, and after the completion the history gains exactly one
message, an assistant message. -/
theorem runPrompt_no_tool_calls (env : Env)
    (p0 : Request → Nat → Outcome Response)
    (rest : List (Request → Nat → Outcome Response))
    (prompt : String) (msgs : List HistoryMessage) (resp : Response)
    (h0 : ∀ req, p0 req 0 = .ok resp)
    (hrole : resp.role = "assistant")
    (hcalls : resp.toolCalls = []) :
    runPrompt env (p0 :: rest) prompt msgs
      = ([[]],
         (if prompt != "" then msgs ++ [userMessage prompt] else msgs)
           ++ [⟨"assistant", buildAssistantContent resp⟩],
         .ok ()) := by
  rw [runPrompt_settle env p0 rest prompt msgs resp h0 hcalls, hrole]

/-- Witness for `runPrompt_no_tool_calls` at a concrete provider. -/
theorem runPrompt_no_tool_calls_witness :
    runPrompt ⟨[], fun _ _ _ => .err "unused"⟩
      [fun _ _ => .ok ⟨"assistant", "hello", []⟩] "hi" []
      = ([[]],
         [userMessage "hi", ⟨"assistant", buildAssistantContent ⟨"assistant", "hello", []⟩⟩],
         .ok ()) := by
  rw [runPrompt_no_tool_calls ⟨[], fun _ _ _ => .err "unused"⟩
    (fun _ _ => .ok ⟨"assistant", "hello", []⟩) [] "hi" []
    ⟨"assistant", "hello", []⟩ (fun _ => rfl) rfl rfl]
  decide

/-- Witness for `runPrompt_fatal_error` at a concrete provider. -/
theorem runPrompt_fatal_error_witness :
    runPrompt ⟨[], fun _ _ _ => .err "unused"⟩
      [fun _ _ => .err "boom"] "hi" []
      = ([[]], [userMessage "hi"], .err "boom") := by
  rw [(runPrompt_fatal_error ⟨[], fun _ _ _ => .err "unused"⟩
    (fun _ _ => .err "boom") [] "hi" [] "boom" (fun _ => rfl) (by decide)).2]
  decide

/-- C10: a tool call whose invocation succeeds with a nil `Content` payload
produces no `tool_result` block at all — its `tool_use` block stays in the
appended assistant message with no paired result — and a round in which
every tool call ends this way settles without recursing even though the
tools ran. -/
theorem runPrompt_nil_content (env : Env)
    (p0 : Request → Nat → Outcome Response)
    (rest : List (Request → Nat → Outcome Response))
    (prompt : String) (msgs : List HistoryMessage) (resp : Response)
    (tc : ToolCall) (s n : String)
    (hcalls : resp.toolCalls = [tc])
    (hsplit : splitToolName tc.name = [s, n])
    (hclient : env.clients.contains s = true)
    (hnil : env.callTool s n tc.args = .ok none)
    (h0 : ∀ req, p0 req 0 = .ok resp) :
    processToolCall env tc = none ∧
    toolUseBlock tc ∈ buildAssistantContent resp ∧
    runPrompt env (p0 :: rest) prompt msgs
      = ([[]],
         (if prompt != "" then msgs ++ [userMessage prompt] else msgs)
           ++ [⟨resp.role, buildAssistantContent resp⟩],
         .ok ()) := by
  have hp : processToolCall env tc = none := by
    simp [processToolCall, hsplit, hclient, hnil]
  refine ⟨hp, ?_, ?_⟩
  · simp [buildAssistantContent, hcalls]
  · rw [runPrompt_round env p0 rest prompt msgs resp h0]
    simp [toolResultsOf, hcalls, hp]

/-- Witness for `runPrompt_nil_content` at a concrete environment. -/
theorem runPrompt_nil_content_witness :
    processToolCall ⟨["srv"], fun _ _ _ => .ok none⟩ ⟨"i1", "srv__t", "{}"⟩ = none ∧
    toolUseBlock ⟨"i1", "srv__t", "{}"⟩
      ∈ buildAssistantContent ⟨"assistant", "", [⟨"i1", "srv__t", "{}"⟩]⟩ ∧
    runPrompt ⟨["srv"], fun _ _ _ => .ok none⟩
      [fun _ _ => .ok ⟨"assistant", "", [⟨"i1", "srv__t", "{}"⟩]⟩] "hi" []
      = ([[]],
         [userMessage "hi",
          ⟨"assistant", buildAssistantContent ⟨"assistant", "", [⟨"i1", "srv__t", "{}"⟩]⟩⟩],
         .ok ()) := by
  have h := runPrompt_nil_content ⟨["srv"], fun _ _ _ => .ok none⟩
    (fun _ _ => .ok ⟨"assistant", "", [⟨"i1", "srv__t", "{}"⟩]⟩) [] "hi" []
    ⟨"assistant", "", [⟨"i1", "srv__t", "{}"⟩]⟩ ⟨"i1", "srv__t", "{}"⟩ "srv" "t"
    rfl (by decide) (by decide) rfl (fun _ => rfl)
  refine ⟨h.1, h.2.1, ?_⟩
  rw [h.2.2]
  decide

theorem processToolCall_success (env : Env) (tc : ToolCall) (s n : String)
    (pl : List Payload) (hsplit : splitToolName tc.name = [s, n])
    (hclient : env.clients.contains s = true)
    (hok : env.callTool s n tc.args = .ok (some pl)) :
    processToolCall env tc = some (successResultBlock tc pl) := by
  simp [processToolCall, hsplit, hok]
  simpa using hclient

/-- C4: a completion with exactly two tool calls, both dispatching
successfully, appends exactly one assistant message containing both
`tool_use` blocks in provider order, followed by exactly two `tool` role
messages — one per tool result, in dispatch order — and then recurses
exactly once with an empty prompt (the second, final round settles). -/
theorem runPrompt_two_tool_calls (env : Env)
    (p0 p1 : Request → Nat → Outcome Response)
    (prompt : String) (msgs : List HistoryMessage) (resp respF : Response)
    (tc1 tc2 : ToolCall) (s1 n1 s2 n2 : String) (pl1 pl2 : List Payload)
    (hrole : resp.role = "assistant")
    (hcalls : resp.toolCalls = [tc1, tc2])
    (h0 : ∀ req, p0 req 0 = .ok resp)
    (hs1 : splitToolName tc1.name = [s1, n1])
    (hc1 : env.clients.contains s1 = true)
    (ht1 : env.callTool s1 n1 tc1.args = .ok (some pl1))
    (hs2 : splitToolName tc2.name = [s2, n2])
    (hc2 : env.clients.contains s2 = true)
    (ht2 : env.callTool s2 n2 tc2.args = .ok (some pl2))
    (h1 : ∀ req, p1 req 0 = .ok respF)
    (hF : respF.toolCalls = []) :
    runPrompt env [p0, p1] prompt msgs
      = ([[], []],
         (if prompt != "" then msgs ++ [userMessage prompt] else msgs)
           ++ [⟨"assistant",
                 (if resp.content != "" then [{ type := "text", text := resp.content }] else [])
                   ++ [toolUseBlock tc1, toolUseBlock tc2]⟩,
               toolMessage (successResultBlock tc1 pl1),
               toolMessage (successResultBlock tc2 pl2),
               ⟨respF.role, buildAssistantContent respF⟩],
         .ok ()) := by
  have hp1 := processToolCall_success env tc1 s1 n1 pl1 hs1 hc1 ht1
  have hp2 := processToolCall_success env tc2 s2 n2 pl2 hs2 hc2 ht2
  have htrs : toolResultsOf env resp
      = [successResultBlock tc1 pl1, successResultBlock tc2 pl2] := by
    simp [toolResultsOf, hcalls, hp1, hp2]
  rw [runPrompt_round env p0 [p1] prompt msgs resp h0]
  simp only [htrs]
  rw [runPrompt_settle env p1 [] "" _ respF h1 hF]
  simp [buildAssistantContent, hcalls, hrole, toolMessage, List.append_assoc]

/-- C3 counterexample: the code splits the qualified name with
`strings.Split`, i.e. on every occurrence of `"__"`, not on the first one:
for `"a__b__c"` the specified split-on-first yields the two parts
`("a", "b__c")` — which the claim says is dispatched — while the code gets
three parts and skips the call even though server `"a"` is registered and
the transport would succeed. -/
theorem splitToolName_first_occurrence_counterexample :
    specSplitToolName "a__b__c" = some ("a", "b__c") ∧
    splitToolName "a__b__c" = ["a", "b", "c"] ∧
    processToolCall ⟨["a"], fun _ _ _ => .ok (some [.text "r"])⟩
      ⟨"id1", "a__b__c", "{}"⟩ = none :=
  ⟨by decide, by decide, by decide⟩

theorem processToolCall_bad_name (env : Env) (tc : ToolCall)
    (hbad : (splitToolName tc.name).length ≠ 2) :
    processToolCall env tc = none := by
  cases hsp : splitToolName tc.name with
  | nil => simp [processToolCall, hsp]
  | cons a t =>
    cases t with
    | nil => simp [processToolCall, hsp]
    | cons b t2 =>
      cases t2 with
      | nil => exact absurd (by rw [hsp]; rfl) hbad
      | cons c t3 => simp [processToolCall, hsp]

/-- C3 (amended): the qualified name is split on every occurrence of the
two-character separator `"__"`; a name yielding anything other than exactly
two parts is a format error for that call only — the call is skipped, not
retried, the turn is not aborted, and the remaining tool calls of the round
are still dispatched. -/
theorem runPrompt_malformed_tool_name (env : Env)
    (p0 p1 : Request → Nat → Outcome Response)
    (prompt : String) (msgs : List HistoryMessage) (resp respF : Response)
    (tcBad tcGood : ToolCall) (b : ContentBlock)
    (hbad : (splitToolName tcBad.name).length ≠ 2)
    (hcalls : resp.toolCalls = [tcBad, tcGood])
    (hgood : processToolCall env tcGood = some b)
    (h0 : ∀ req, p0 req 0 = .ok resp)
    (h1 : ∀ req, p1 req 0 = .ok respF)
    (hF : respF.toolCalls = []) :
    processToolCall env tcBad = none ∧
    toolResultsOf env resp = [b] ∧
    runPrompt env [p0, p1] prompt msgs
      = ([[], []],
         (if prompt != "" then msgs ++ [userMessage prompt] else msgs)
           ++ [⟨resp.role, buildAssistantContent resp⟩,
               toolMessage b,
               ⟨respF.role, buildAssistantContent respF⟩],
         .ok ()) := by
  have hp := processToolCall_bad_name env tcBad hbad
  have htrs : toolResultsOf env resp = [b] := by
    simp [toolResultsOf, hcalls, hp, hgood]
  refine ⟨hp, htrs, ?_⟩
  rw [runPrompt_round env p0 [p1] prompt msgs resp h0]
  simp only [htrs]
  rw [runPrompt_settle env p1 [] "" _ respF h1 hF]
  simp [toolMessage, List.append_assoc]

/-- Witness for `runPrompt_malformed_tool_name` at a concrete environment:
the malformed `"nodelimiter"` call is skipped while `"srv__ok"` still runs. -/
theorem runPrompt_malformed_tool_name_witness :
    processToolCall envW ⟨"i1", "nodelimiter", "{}"⟩ = none ∧
    toolResultsOf envW
      ⟨"assistant", "", [⟨"i1", "nodelimiter", "{}"⟩, ⟨"i2", "srv__ok", "{}"⟩]⟩
      = [successResultBlock ⟨"i2", "srv__ok", "{}"⟩ [.text "hi"]] ∧
    runPrompt envW
      [fun _ _ => .ok ⟨"assistant", "", [⟨"i1", "nodelimiter", "{}"⟩, ⟨"i2", "srv__ok", "{}"⟩]⟩,
       fun _ _ => .ok ⟨"assistant", "done", []⟩] "hi" []
      = ([[], []],
         [userMessage "hi",
          ⟨"assistant", buildAssistantContent
            ⟨"assistant", "", [⟨"i1", "nodelimiter", "{}"⟩, ⟨"i2", "srv__ok", "{}"⟩]⟩⟩,
          toolMessage (successResultBlock ⟨"i2", "srv__ok", "{}"⟩ [.text "hi"]),
          ⟨"assistant", buildAssistantContent ⟨"assistant", "done", []⟩⟩],
         .ok ()) := by
  have h := runPrompt_malformed_tool_name envW
    (fun _ _ => .ok ⟨"assistant", "", [⟨"i1", "nodelimiter", "{}"⟩, ⟨"i2", "srv__ok", "{}"⟩]⟩)
    (fun _ _ => .ok ⟨"assistant", "done", []⟩) "hi" []
    ⟨"assistant", "", [⟨"i1", "nodelimiter", "{}"⟩, ⟨"i2", "srv__ok", "{}"⟩]⟩
    ⟨"assistant", "done", []⟩
    ⟨"i1", "nodelimiter", "{}"⟩ ⟨"i2", "srv__ok", "{}"⟩
    (successResultBlock ⟨"i2", "srv__ok", "{}"⟩ [.text "hi"])
    (by decide) rfl (by decide) (fun _ => rfl) (fun _ => rfl) rfl
  refine ⟨h.1, h.2.1, ?_⟩
  rw [h.2.2]
  decide

/-- Witness for `runPrompt_two_tool_calls` at a concrete environment and
provider script. -/
theorem runPrompt_two_tool_calls_witness :
    runPrompt envW
      [fun _ _ => .ok ⟨"assistant", "t", [⟨"i1", "srv__ok", "{}"⟩, ⟨"i2", "srv__ok", "[]"⟩]⟩,
       fun _ _ => .ok ⟨"assistant", "done", []⟩] "hi" []
      = ([[], []],
         [userMessage "hi",
          ⟨"assistant",
           [{ type := "text", text := "t" },
            toolUseBlock ⟨"i1", "srv__ok", "{}"⟩, toolUseBlock ⟨"i2", "srv__ok", "[]"⟩]⟩,
          toolMessage (successResultBlock ⟨"i1", "srv__ok", "{}"⟩ [.text "hi"]),
          toolMessage (successResultBlock ⟨"i2", "srv__ok", "[]"⟩ [.text "hi"]),
          ⟨"assistant", buildAssistantContent ⟨"assistant", "done", []⟩⟩],
         .ok ()) := by
  rw [runPrompt_two_tool_calls envW
    (fun _ _ => .ok ⟨"assistant", "t", [⟨"i1", "srv__ok", "{}"⟩, ⟨"i2", "srv__ok", "[]"⟩]⟩)
    (fun _ _ => .ok ⟨"assistant", "done", []⟩) "hi" []
    ⟨"assistant", "t", [⟨"i1", "srv__ok", "{}"⟩, ⟨"i2", "srv__ok", "[]"⟩]⟩
    ⟨"assistant", "done", []⟩
    ⟨"i1", "srv__ok", "{}"⟩ ⟨"i2", "srv__ok", "[]"⟩ "srv" "ok" "srv" "ok"
    [.text "hi"] [.text "hi"]
    rfl rfl (fun _ => rfl) (by decide) (by decide) (by decide)
    (by decide) (by decide) (by decide) (fun _ => rfl) rfl]
  decide

/-- C6 counterexample: a tool call that cannot be routed (its server name is
not registered) is NOT converted into a `tool_result` content block — the
code prints the error and `continue`s, so the round's `toolResults` stays
empty — contradicting the claim that every unroutable call yields an
error-text `tool_result` block. -/
theorem unknown_server_counterexample :
    processToolCall ⟨["other"], fun _ _ _ => .ok (some [.text "r"])⟩
      ⟨"id1", "srv__tool", "{}"⟩ = none ∧
    toolResultsOf ⟨["other"], fun _ _ _ => .ok (some [.text "r"])⟩
      ⟨"assistant", "", [⟨"id1", "srv__tool", "{}"⟩]⟩ = [] :=
  ⟨by decide, by decide⟩

/-- C6 (amended): a tool call whose server is unknown is skipped with no
`tool_result` block (the error is only reported), while a tool call whose
invocation errors is converted into a `tool_result` block carrying the
error text; in both cases the turn continues with the remaining tool calls
and the error is never propagated as a turn failure. -/
theorem runPrompt_dispatch_failures (env : Env)
    (p0 p1 : Request → Nat → Outcome Response)
    (prompt : String) (msgs : List HistoryMessage) (resp respF : Response)
    (tc : ToolCall) (s n e : String)
    (hsplit : splitToolName tc.name = [s, n])
    (hclient : env.clients.contains s = true)
    (herr : env.callTool s n tc.args = .err e)
    (hcalls : resp.toolCalls = [tc])
    (h0 : ∀ req, p0 req 0 = .ok resp)
    (h1 : ∀ req, p1 req 0 = .ok respF)
    (hF : respF.toolCalls = []) :
    (∀ tcU sU nU, splitToolName tcU.name = [sU, nU] →
      env.clients.contains sU = false → processToolCall env tcU = none) ∧
    processToolCall env tc = some (errorResultBlock tc n e) ∧
    runPrompt env [p0, p1] prompt msgs
      = ([[], []],
         (if prompt != "" then msgs ++ [userMessage prompt] else msgs)
           ++ [⟨resp.role, buildAssistantContent resp⟩,
               toolMessage (errorResultBlock tc n e),
               ⟨respF.role, buildAssistantContent respF⟩],
         .ok ()) := by
  have hunk : ∀ tcU sU nU, splitToolName tcU.name = [sU, nU] →
      env.clients.contains sU = false → processToolCall env tcU = none := by
    intro tcU sU nU hspU hcontU
    have hmem : sU ∉ env.clients := by simpa using hcontU
    simp [processToolCall, hspU, hmem]
  have hp : processToolCall env tc = some (errorResultBlock tc n e) := by
    simp [processToolCall, hsplit, herr]
    simpa using hclient
  have htrs : toolResultsOf env resp = [errorResultBlock tc n e] := by
    simp [toolResultsOf, hcalls, hp]
  refine ⟨hunk, hp, ?_⟩
  rw [runPrompt_round env p0 [p1] prompt msgs resp h0]
  simp only [htrs]
  rw [runPrompt_settle env p1 [] "" _ respF h1 hF]
  simp [toolMessage, List.append_assoc]

/-- Witness for `runPrompt_dispatch_failures` at a concrete environment. -/
theorem runPrompt_dispatch_failures_witness :
    processToolCall envW ⟨"i1", "srv__bad", "{}"⟩
      = some (errorResultBlock ⟨"i1", "srv__bad", "{}"⟩ "bad" "boom") ∧
    runPrompt envW
      [fun _ _ => .ok ⟨"assistant", "", [⟨"i1", "srv__bad", "{}"⟩]⟩,
       fun _ _ => .ok ⟨"assistant", "done", []⟩] "hi" []
      = ([[], []],
         [userMessage "hi",
          ⟨"assistant", buildAssistantContent ⟨"assistant", "", [⟨"i1", "srv__bad", "{}"⟩]⟩⟩,
          toolMessage (errorResultBlock ⟨"i1", "srv__bad", "{}"⟩ "bad" "boom"),
          ⟨"assistant", buildAssistantContent ⟨"assistant", "done", []⟩⟩],
         .ok ()) := by
  have h := runPrompt_dispatch_failures envW
    (fun _ _ => .ok ⟨"assistant", "", [⟨"i1", "srv__bad", "{}"⟩]⟩)
    (fun _ _ => .ok ⟨"assistant", "done", []⟩) "hi" []
    ⟨"assistant", "", [⟨"i1", "srv__bad", "{}"⟩]⟩ ⟨"assistant", "done", []⟩
    ⟨"i1", "srv__bad", "{}"⟩ "srv" "bad" "boom"
    (by decide) (by decide) (by decide) rfl (fun _ => rfl) (fun _ => rfl) rfl
  refine ⟨h.2.1, ?_⟩
  rw [h.2.2]
  decide

/-! ## Pruning lemmas -/

theorem pruneMessages_of_le (w : Nat) (msgs : List HistoryMessage)
    (h : msgs.length ≤ w) : pruneMessages w msgs = msgs := by
  simp [pruneMessages, h]

/-- C8: pruning is idempotent — `Prune(Prune(seq, w), w) = Prune(seq, w)`
for every sequence and every window `w > 0`. -/
theorem pruneMessages_idempotent (w : Nat) (msgs : List HistoryMessage)
    (hw : 0 < w) :
    pruneMessages w (pruneMessages w msgs) = pruneMessages w msgs := by
  by_cases h : msgs.length ≤ w
  · rw [pruneMessages_of_le w msgs h, pruneMessages_of_le w msgs h]
  · have hlen : (pruneMessages w msgs).length ≤ w := by
      unfold pruneMessages
      rw [if_neg h]
      calc (List.filterMap _ _).length
          ≤ (msgs.drop (msgs.length - w)).length := List.length_filterMap_le _ _
        _ = msgs.length - (msgs.length - w) := List.length_drop _ _
        _ ≤ w := by omega
    exact pruneMessages_of_le w _ hlen

/-- Witness for `pruneMessages_idempotent` at a concrete sequence. -/
theorem pruneMessages_idempotent_witness :
    pruneMessages 1
      (pruneMessages 1
        [⟨"user", [{ type := "text", text := "a" }]⟩,
         ⟨"assistant", [{ type := "tool_use", id := "1" }]⟩])
      = pruneMessages 1
          [⟨"user", [{ type := "text", text := "a" }]⟩,
           ⟨"assistant", [{ type := "tool_use", id := "1" }]⟩] :=
  pruneMessages_idempotent 1 _ (by decide)

theorem keepBlock_of_text {tu tr : List String} {b : ContentBlock}
    (hb : b.type = "text") : keepBlock tu tr b = true := by
  simp [keepBlock, hb]

theorem filter_ne_nil_of_hasText (tu tr : List String) (m : HistoryMessage)
    (h : m.content.any (fun b => b.type == "text") = true) :
    m.content.filter (keepBlock tu tr) ≠ [] := by
  rw [List.any_eq_true] at h
  obtain ⟨b, hb, hty⟩ := h
  exact List.ne_nil_of_mem
    (List.mem_filter.mpr ⟨hb, keepBlock_of_text (by simpa using hty)⟩)

theorem pruneOne_some_of_filter_ne (tu tr : List String) (m : HistoryMessage)
    (h : m.content.filter (keepBlock tu tr) ≠ []) :
    pruneOne tu tr m = some ⟨m.role, m.content.filter (keepBlock tu tr)⟩ := by
  have hlen : 0 < (m.content.filter (keepBlock tu tr)).length :=
    List.length_pos.mpr h
  by_cases hr : m.role == "assistant" <;> simp [pruneOne, hlen, hr]

/-- C9: after the block filtering of `Prune`, an assistant-role message is
dropped entirely exactly when it has zero surviving content blocks and had
no plain text block before filtering, and a non-assistant message that is
empty after filtering is kept only when it originally had a text block or
still has at least one surviving block. -/
theorem pruneOne_drop_criteria (tu tr : List String) (m : HistoryMessage) :
    (m.role = "assistant" →
      (pruneOne tu tr m = none ↔
        (m.content.filter (keepBlock tu tr) = [] ∧
         m.content.any (fun b => b.type == "text") = false))) ∧
    (m.role ≠ "assistant" →
      pruneOne tu tr m ≠ none →
      m.content.filter (keepBlock tu tr) = [] →
      (m.content.any (fun b => b.type == "text") = true ∨
       m.content.filter (keepBlock tu tr) ≠ [])) := by
  constructor
  · intro hrole
    constructor
    · intro hnone
      by_cases hP : m.content.filter (keepBlock tu tr) = []
      · refine ⟨hP, ?_⟩
        by_contra htext
        exact filter_ne_nil_of_hasText tu tr m
          (eq_true_of_ne_false fun hf => htext hf) hP
      · rw [pruneOne_some_of_filter_ne tu tr m hP] at hnone
        exact absurd hnone (Option.some_ne_none _)
    · rintro ⟨hP, htext⟩
      simp [pruneOne, hP, hrole, htext]
  · intro hrole hkept hP
    left
    by_contra htext
    have htf : m.content.any (fun b => b.type == "text") = false :=
      Bool.eq_false_iff.mpr fun ht => htext ht
    have hra : (m.role == "assistant") = false := by
      simpa using hrole
    exact hkept (by simp [pruneOne, hP, hra, htf])

/-- Witness for `pruneOne_drop_criteria`: a textless assistant message whose
only block is an orphaned `tool_use` is dropped. -/
theorem pruneOne_drop_criteria_witness :
    pruneOne [] [] ⟨"assistant", [{ type := "tool_use", id := "1" }]⟩ = none :=
  ((pruneOne_drop_criteria [] []
      ⟨"assistant", [{ type := "tool_use", id := "1" }]⟩).1 rfl).mpr
    ⟨by decide, by decide⟩

theorem mem_allBlocks {msgs : List HistoryMessage} {b : ContentBlock} :
    b ∈ allBlocks msgs ↔ ∃ m ∈ msgs, b ∈ m.content := by
  simp [allBlocks]

theorem mem_collectToolUseIds {msgs : List HistoryMessage} {s : String} :
    s ∈ collectToolUseIds msgs
      ↔ ∃ m ∈ msgs, ∃ b ∈ m.content, b.type = "tool_use" ∧ b.id = s := by
  simp [collectToolUseIds, Option.ite_none_right_eq_some, beq_iff_eq]

theorem mem_collectToolResultIds {msgs : List HistoryMessage} {s : String} :
    s ∈ collectToolResultIds msgs
      ↔ ∃ m ∈ msgs, ∃ b ∈ m.content, b.type = "tool_result" ∧ b.toolUseID = s := by
  simp [collectToolResultIds, Option.ite_none_right_eq_some, beq_iff_eq]

theorem pruneOne_content {tu tr : List String} {m m' : HistoryMessage}
    (h : pruneOne tu tr m = some m') :
    m'.content = m.content.filter (keepBlock tu tr) := by
  by_cases hP : m.content.filter (keepBlock tu tr) = []
  · by_cases hr : (m.role == "assistant") = true
    · simp [pruneOne, hP, hr] at h
    · by_cases ht : m.content.any (fun b => b.type == "text") = true
      · simp only [pruneOne, hP] at h
        rw [if_pos (by simp [Bool.eq_false_iff.mpr hr]),
            if_pos (by simp [ht, hP])] at h
        obtain rfl := Option.some_injective _ h.symm
        simpa using hP.symm
      · simp [pruneOne, hP, hr, Bool.eq_false_iff.mpr ht] at h
  · rw [pruneOne_some_of_filter_ne tu tr m hP] at h
    obtain rfl := Option.some_injective _ h.symm
    rfl

theorem block_in_pruned {tu tr : List String} {kept : List HistoryMessage}
    {m : HistoryMessage} {b : ContentBlock} (hm : m ∈ kept)
    (hb : b ∈ m.content.filter (keepBlock tu tr)) :
    b ∈ allBlocks (kept.filterMap (pruneOne tu tr)) := by
  have hne : m.content.filter (keepBlock tu tr) ≠ [] := List.ne_nil_of_mem hb
  rw [mem_allBlocks]
  exact ⟨⟨m.role, m.content.filter (keepBlock tu tr)⟩,
    List.mem_filterMap.mpr ⟨m, hm, pruneOne_some_of_filter_ne tu tr m hne⟩, hb⟩

theorem pruned_block_src {tu tr : List String} {kept : List HistoryMessage}
    {b : ContentBlock}
    (hb : b ∈ allBlocks (kept.filterMap (pruneOne tu tr))) :
    ∃ m ∈ kept, b ∈ m.content.filter (keepBlock tu tr) := by
  rw [mem_allBlocks] at hb
  obtain ⟨m', hm', hbm'⟩ := hb
  obtain ⟨m, hm, hpm⟩ := List.mem_filterMap.mp hm'
  exact ⟨m, hm, by rwa [pruneOne_content hpm] at hbm'⟩

theorem filterMap_pruneOne_no_orphans (kept : List HistoryMessage) :
    noDanglingResults
      (kept.filterMap
        (pruneOne (collectToolUseIds kept) (collectToolResultIds kept))) = true ∧
    noDanglingUses
      (kept.filterMap
        (pruneOne (collectToolUseIds kept) (collectToolResultIds kept))) = true := by
  constructor
  · rw [noDanglingResults, List.all_eq_true]
    intro b hb
    by_cases hty : b.type = "tool_result"
    · rw [Bool.or_eq_true]
      right
      obtain ⟨m, hm, hbf⟩ := pruned_block_src hb
      have hkeep : keepBlock (collectToolUseIds kept) (collectToolResultIds kept) b = true :=
        (List.mem_filter.mp hbf).2
      have hcont : b.toolUseID ∈ collectToolUseIds kept := by
        have : (collectToolUseIds kept).contains b.toolUseID = true := by
          simpa [keepBlock, hty] using hkeep
        simpa using this
      obtain ⟨m2, hm2, c, hc, hcty, hcid⟩ := mem_collectToolUseIds.mp hcont
      have hbmem : b ∈ m.content := (List.mem_filter.mp hbf).1
      have htr : c.id ∈ collectToolResultIds kept :=
        mem_collectToolResultIds.mpr ⟨m, hm, b, hbmem, hty, hcid.symm⟩
      have hkc : keepBlock (collectToolUseIds kept) (collectToolResultIds kept) c = true := by
        simp [keepBlock, hcty]
        simpa using htr
      have hcout := block_in_pruned hm2 (List.mem_filter.mpr ⟨hc, hkc⟩)
      rw [List.any_eq_true]
      exact ⟨c, hcout, by simp [hcty, hcid]⟩
    · rw [Bool.or_eq_true]
      left
      simpa using hty
  · rw [noDanglingUses, List.all_eq_true]
    intro b hb
    by_cases hty : b.type = "tool_use"
    · rw [Bool.or_eq_true]
      right
      obtain ⟨m, hm, hbf⟩ := pruned_block_src hb
      have hkeep : keepBlock (collectToolUseIds kept) (collectToolResultIds kept) b = true :=
        (List.mem_filter.mp hbf).2
      have hcont : b.id ∈ collectToolResultIds kept := by
        have : (collectToolResultIds kept).contains b.id = true := by
          simpa [keepBlock, hty] using hkeep
        simpa using this
      obtain ⟨m2, hm2, c, hc, hcty, hcid⟩ := mem_collectToolResultIds.mp hcont
      have hbmem : b ∈ m.content := (List.mem_filter.mp hbf).1
      have htu : c.toolUseID ∈ collectToolUseIds kept :=
        mem_collectToolUseIds.mpr ⟨m, hm, b, hbmem, hty, hcid.symm⟩
      have hkc : keepBlock (collectToolUseIds kept) (collectToolResultIds kept) c = true := by
        simp [keepBlock, hcty]
        simpa using htu
      have hcout := block_in_pruned hm2 (List.mem_filter.mpr ⟨hc, hkc⟩)
      rw [List.any_eq_true]
      exact ⟨c, hcout, by simp [hcty, hcid]⟩
    · rw [Bool.or_eq_true]
      left
      simpa using hty

/-- C2 counterexample: `Prune` does NOT establish the no-orphan invariant on
every input — when the input fits inside the window it is returned
unchanged, orphans included.  With window 1 (> 0) and a single message
holding a `tool_result` whose `tool_use_id` matches no `tool_use`, the
output still holds that dangling `tool_result`. -/
theorem prune_orphan_counterexample :
    0 < 1 ∧
    pruneMessages 1 [⟨"tool", [{ type := "tool_result", toolUseID := "x" }]⟩]
      = [⟨"tool", [{ type := "tool_result", toolUseID := "x" }]⟩] ∧
    noDanglingResults
      (pruneMessages 1
        [⟨"tool", [{ type := "tool_result", toolUseID := "x" }]⟩]) = false :=
  ⟨by decide, by decide, by decide⟩

/-- C2 (amended): whenever the input is longer than the window — so that the
filtering passes of `Prune` actually run — the output contains no orphan in
either direction: every surviving `tool_result` block's `tool_use_id` equals
the id of some surviving `tool_use` block of the output and vice versa,
including after the final whole-message dropping step.  (When the input fits
in the window the output is the input unchanged, so the invariant is merely
preserved, not established.) -/
theorem pruneMessages_no_orphans (w : Nat) (msgs : List HistoryMessage)
    (h : w < msgs.length) :
    noDanglingResults (pruneMessages w msgs) = true ∧
    noDanglingUses (pruneMessages w msgs) = true := by
  have hgt : ¬ msgs.length ≤ w := by omega
  have hout : pruneMessages w msgs
      = (msgs.drop (msgs.length - w)).filterMap
          (pruneOne (collectToolUseIds (msgs.drop (msgs.length - w)))
            (collectToolResultIds (msgs.drop (msgs.length - w)))) := by
    rw [pruneMessages, if_neg hgt]
  rw [hout]
  exact filterMap_pruneOne_no_orphans _

/-- Witness for `pruneMessages_no_orphans` at a concrete over-window
sequence in which pruning drops an early `tool_use` whose result fell
outside the window. -/
theorem pruneMessages_no_orphans_witness :
    noDanglingResults
      (pruneMessages 2
        [⟨"user", [{ type := "text", text := "a" }]⟩,
         ⟨"assistant", [{ type := "tool_use", id := "1" }]⟩,
         ⟨"tool", [{ type := "tool_result", toolUseID := "1" }]⟩]) = true ∧
    noDanglingUses
      (pruneMessages 2
        [⟨"user", [{ type := "text", text := "a" }]⟩,
         ⟨"assistant", [{ type := "tool_use", id := "1" }]⟩,
         ⟨"tool", [{ type := "tool_result", toolUseID := "1" }]⟩]) = true :=
  pruneMessages_no_orphans 2 _ (by decide)

end Mcphost

